import Mathlib

/-!
Shallow embedding of `taxonomic_stats.py`: the Loader/Validator `read_data`
and the Aggregator `calculate_summary_statistics`, together with theorems
settling the specification claims about them.

Modelling conventions:
* A parsed table cell of the `count` column is `NumCell`: `null` models a
  missing value (pandas `NaN`), `num q` models a numeric value or a string
  that `pd.to_numeric` coerces to the rational `q`, and `nonnum s` models a
  textual value on which numeric coercion fails (`errors="coerce"` turns it
  into `NaN`).
* `species` and `phylum` cells are `Option String` (`none` models `NaN`).
* `sys.exit(1)` is modelled by returning `Except.error 1`; the happy path
  returns `Except.ok`.
* A `Source` is the argument of `read_data`: a filesystem path (carrying
  whether the file exists and, when parsing succeeds, the parsed frame),
  an in-memory stream, or an argument of some other type.  A parse failure
  is the `none` frame: the exception is caught and the process exits 1.
-/

namespace TaxonomicStats

/-- One cell of the `count` column. -/
inductive NumCell where
  | null : NumCell
  | num : ℚ → NumCell
  | nonnum : String → NumCell
  deriving DecidableEq

/-- One row of the parsed input table, restricted to the three required
columns (additional columns are never read by the pipeline). -/
structure RawRow where
  species : Option String
  phylum : Option String
  count : NumCell
  deriving DecidableEq

/-- A parsed table: its header (column names) and its rows. -/
structure RawFrame where
  columns : List String
  rows : List RawRow
  deriving DecidableEq

/-- The argument of `read_data`: a path (with existence flag and parse
result), a `StringIO` stream (with parse result), or a value of any other
type. -/
inductive Source where
  | path : String → Bool → Option RawFrame → Source
  | stream : Option RawFrame → Source
  | invalid : Source

/-- `required_columns = {"species", "phylum", "count"}`. -/
def required_columns : List String := ["species", "phylum", "count"]

/-- `required_columns.issubset(df.columns)`. -/
def hasRequiredColumns (cols : List String) : Bool :=
  required_columns.all (fun c => cols.contains c)

/-- `pd.to_numeric(cell, errors="coerce")`: numeric values pass through,
non-coercible values become `NaN`, `NaN` stays `NaN`. -/
def toNumericCoerce : NumCell → NumCell
  | .null => .null
  | .num q => .num q
  | .nonnum _ => .null

/-- Truncation toward zero, the conversion numpy applies in
`astype(int)` on a float value. -/
def truncQ (q : ℚ) : ℤ := if 0 ≤ q then ⌊q⌋ else ⌈q⌉

/-- `astype(int)` on one cell (only ever reached on numeric cells). -/
def astypeInt : NumCell → NumCell
  | .num q => .num ((truncQ q : ℤ) : ℚ)
  | c => c

/-- The predicate of `df.dropna(subset=["species", "phylum", "count"])`:
all three required fields are non-null. -/
def rowComplete (r : RawRow) : Bool :=
  r.species.isSome && r.phylum.isSome && decide (r.count ≠ NumCell.null)

/-- The row-cleaning pipeline of `read_data` (lines 75-78):
`dropna(subset=required)`, `to_numeric(errors="coerce")`,
`dropna(subset=["count"])`, `astype(int)`. -/
def cleanRows (rows : List RawRow) : List RawRow :=
  let step1 := rows.filter rowComplete
  let step2 := step1.map (fun r => { r with count := toNumericCoerce r.count })
  let step3 := step2.filter (fun r => decide (r.count ≠ NumCell.null))
  step3.map (fun r => { r with count := astypeInt r.count })

/-- The part of `read_data` after a frame has been parsed: the schema
check, then row cleaning. -/
def read_frame (df : RawFrame) : Except Nat (List RawRow) :=
  if hasRequiredColumns df.columns then Except.ok (cleanRows df.rows)
  else Except.error 1

/-- `read_data`: source resolution (missing path file or non-path,
non-stream argument exits 1; a parse failure raises, is caught, and exits
1), then schema check and row cleaning. -/
def read_data : Source → Except Nat (List RawRow)
  | .path _ false _ => Except.error 1
  | .path _ true none => Except.error 1
  | .path _ true (some df) => read_frame df
  | .stream none => Except.error 1
  | .stream (some df) => read_frame df
  | .invalid => Except.error 1

/-- The equivalent per-row cleaning decision: `none` when the row is
dropped, otherwise the cleaned row.  `cleanRows` is proved equal to
`List.filterMap cleanRow`. -/
def cleanRow (r : RawRow) : Option RawRow :=
  if rowComplete r then
    match toNumericCoerce r.count with
    | NumCell.null => none
    | c => some { r with count := astypeInt c }
  else none

/-- One row of the summary table.  `average_species_count` is `none` when
the group mean is `NaN` (a group with no numeric value), which never
happens on a cleaned frame. -/
structure SummaryRow where
  phylum : String
  total_species_count : ℚ
  average_species_count : Option ℚ
  deriving DecidableEq

/-- The numeric value of a cell, when it has one. -/
def countVal : NumCell → Option ℚ
  | .num q => some q
  | _ => none

/-- The group keys of `df.groupby("phylum")`: the distinct non-null
phylum values, sorted ascending (pandas `groupby` default `sort=True`,
`dropna=True`). -/
def groupKeys (df : List RawRow) : List String :=
  List.insertionSort (· ≤ ·) ((df.filterMap (fun r => r.phylum)).dedup)

/-- The rows of `df` whose phylum equals `p`. -/
def phylumGroup (df : List RawRow) (p : String) : List RawRow :=
  df.filter (fun r => decide (r.phylum = some p))

/-- The aggregation of one group:
`total_species_count=("count", "sum")` (pandas sums the non-null values;
an empty sum is 0) and `average_species_count=("count", "mean")` (the mean
of the non-null values, `NaN` when there are none). -/
def aggGroup (df : List RawRow) (p : String) : SummaryRow :=
  let vals := (phylumGroup df p).filterMap (fun r => countVal r.count)
  { phylum := p,
    total_species_count := vals.sum,
    average_species_count :=
      if vals.length = 0 then none
      else some (vals.sum / (vals.length : ℚ)) }

/-- Round half to even, the rule numpy applies in `Series.round`. -/
def roundHalfEven (q : ℚ) : ℤ :=
  if q - ⌊q⌋ < 1 / 2 then ⌊q⌋
  else if 1 / 2 < q - ⌊q⌋ then ⌊q⌋ + 1
  else if ⌊q⌋ % 2 = 0 then ⌊q⌋ else ⌊q⌋ + 1

/-- `Series.round(2)` on one value. -/
def round2 (q : ℚ) : ℚ := (roundHalfEven (q * 100) : ℚ) / 100

/-- The assignment
`summary["average_species_count"] = summary["average_species_count"].round(2)`
applied to one summary row (`NaN` stays `NaN`). -/
def roundAvg (s : SummaryRow) : SummaryRow :=
  { s with average_species_count := s.average_species_count.map round2 }

/-- `calculate_summary_statistics`: group by phylum, aggregate sum and
mean of `count`, round the mean column to 2 decimals. -/
def calculate_summary_statistics (df : List RawRow) : List SummaryRow :=
  let summary := (groupKeys df).map (aggGroup df)
  summary.map roundAvg

/-- The body of `calculate_summary_statistics` with its local state made
explicit: the binding `summary` is created from `df`, then the rounding
assignment updates `summary` (not `df`); the pair returned is the final
value of each of the two bindings. -/
def calculate_summary_statistics_run (df : List RawRow) :
    List RawRow × List SummaryRow :=
  let summary := (groupKeys df).map (aggGroup df)
  let summary2 := summary.map roundAvg
  (df, summary2)

/-- A frame satisfying the Observation invariant of the spec: every row
has non-null species and phylum and a numeric count. -/
def isNumCell : NumCell → Bool
  | .num _ => true
  | _ => false

/-- Bool-valued Observation invariant over a whole frame. -/
def cleanedFrame (df : List RawRow) : Bool :=
  df.all (fun r => r.species.isSome && r.phylum.isSome && isNumCell r.count)

/-- The count of a row known to be numeric (0 on a non-numeric cell;
only used under `cleanedFrame`). -/
def countQ (r : RawRow) : ℚ :=
  match r.count with
  | .num q => q
  | _ => 0

/-! ### Concrete data (the spec's worked example, §8) -/

/-- A fully populated row. -/
def exRow (s p : String) (c : NumCell) : RawRow :=
  { species := some s, phylum := some p, count := c }

/-- The spec's example table, already clean. -/
def exDf : List RawRow :=
  [ exRow "SpeciesA" "Firmicutes" (NumCell.num 120),
    exRow "SpeciesB" "Firmicutes" (NumCell.num 80),
    exRow "SpeciesC" "Bacteroidetes" (NumCell.num 200),
    exRow "SpeciesD" "Bacteroidetes" (NumCell.num 50),
    exRow "SpeciesE" "Proteobacteria" (NumCell.num 300) ]

/-- A row whose count fails numeric coercion. -/
def exBadRow : RawRow :=
  { species := some "SpeciesF", phylum := some "Firmicutes",
    count := NumCell.nonnum "not_numeric" }

/-- The example table with one dirty row appended. -/
def exRawRows : List RawRow := exDf ++ [exBadRow]

/-- A frame with exactly the required columns. -/
def exFrame : RawFrame :=
  { columns := ["species", "phylum", "count"], rows := exRawRows }

/-- A frame with an additional, ignored column. -/
def exFrameExtra : RawFrame :=
  { columns := ["species", "phylum", "count", "kingdom"], rows := exDf }

/-- A frame missing the `phylum` column. -/
def exFrameMissing : RawFrame :=
  { columns := ["species", "count"], rows := exDf }

/-- A one-row cleaned table. -/
def exOne : List RawRow := [exRow "SpeciesA" "Firmicutes" (NumCell.num 120)]

/-- The summary row the Aggregator produces on `exOne`. -/
def exOneSummary : SummaryRow :=
  { phylum := "Firmicutes", total_species_count := 120,
    average_species_count := some 120 }

/-! ### Helper lemmas -/

lemma cleanRows_eq_filterMap (rows : List RawRow) :
    cleanRows rows = rows.filterMap cleanRow := by
  induction rows with
  | nil => rfl
  | cons r rest ih =>
    rw [List.filterMap_cons, ← ih]
    by_cases hc : rowComplete r
    · cases hq : toNumericCoerce r.count with
      | null => simp [cleanRows, cleanRow, hc, hq, List.filter_cons]
      | num q => simp [cleanRows, cleanRow, hc, hq, List.filter_cons]
      | nonnum s => simp [cleanRows, cleanRow, hc, hq, List.filter_cons]
    · simp [cleanRows, cleanRow, hc, List.filter_cons]

lemma cleanRow_of_invalid (r : RawRow)
    (h : r.species = none ∨ r.phylum = none ∨
      toNumericCoerce r.count = NumCell.null) :
    cleanRow r = none := by
  rcases h with h | h | h
  · simp [cleanRow, rowComplete, h]
  · simp [cleanRow, rowComplete, h]
  · by_cases hc : rowComplete r
    · simp [cleanRow, hc, h]
    · simp [cleanRow, hc]

lemma read_data_ok {src : Source} {rows : List RawRow}
    (h : read_data src = Except.ok rows) :
    ∃ rows₀ : List RawRow, rows = cleanRows rows₀ := by
  cases src with
  | path n b parsed =>
    cases b with
    | false => simp [read_data] at h
    | true =>
      cases parsed with
      | none => simp [read_data] at h
      | some df =>
        simp only [read_data, read_frame] at h
        split at h
        · exact ⟨df.rows, (Except.ok.injEq _ _ ▸ h).symm⟩
        · simp at h
  | stream parsed =>
    cases parsed with
    | none => simp [read_data] at h
    | some df =>
      simp only [read_data, read_frame] at h
      split at h
      · exact ⟨df.rows, (Except.ok.injEq _ _ ▸ h).symm⟩
      · simp at h
  | invalid => simp [read_data] at h

lemma cleanRow_invariant {r₀ r : RawRow} (h : cleanRow r₀ = some r) :
    r.species ≠ none ∧ r.phylum ≠ none ∧
      ∃ z : ℤ, r.count = NumCell.num (z : ℚ) := by
  by_cases hc : rowComplete r₀
  · have hfields := hc
    simp only [rowComplete, Bool.and_eq_true, decide_eq_true_eq,
      Option.isSome_iff_ne_none] at hfields
    obtain ⟨⟨hsp, hph⟩, hcnt⟩ := hfields
    cases hq : r₀.count with
    | null => exact absurd hq hcnt
    | num q =>
      simp only [cleanRow, hc, if_true, hq, toNumericCoerce, astypeInt] at h
      cases h
      exact ⟨hsp, hph, truncQ q, rfl⟩
    | nonnum s =>
      simp only [cleanRow, hc, if_true, hq, toNumericCoerce] at h
      exact Option.noConfusion h
  · simp [cleanRow, hc] at h

lemma filterMap_eq_map_of_forall {α β : Type} (l : List α) (f : α → Option β)
    (g : α → β) (h : ∀ x ∈ l, f x = some (g x)) : l.filterMap f = l.map g := by
  induction l with
  | nil => rfl
  | cons a t ih =>
    rw [List.filterMap_cons, h a (List.mem_cons_self a t), List.map_cons,
      ih (fun x hx => h x (List.mem_cons_of_mem a hx))]

lemma sum_filter_add_sum_filter_not {α : Type} (l : List α) (p : α → Bool)
    (f : α → ℚ) :
    ((l.filter p).map f).sum + ((l.filter (fun a => !p a)).map f).sum
      = (l.map f).sum := by
  induction l with
  | nil => simp
  | cons a t ih =>
    by_cases hp : p a
    · simp [List.filter_cons, hp]
      rw [← ih]
      ring
    · simp [List.filter_cons, hp]
      rw [← ih]
      ring

lemma sum_over_groups (keys : List String) (rows : List RawRow)
    (f : RawRow → ℚ) (hnd : keys.Nodup)
    (hcov : ∀ r ∈ rows, ∃ p ∈ keys, r.phylum = some p) :
    (keys.map (fun p => ((phylumGroup rows p).map f).sum)).sum
      = (rows.map f).sum := by
  induction keys generalizing rows with
  | nil =>
    cases rows with
    | nil => simp
    | cons r t =>
      obtain ⟨p, hp, -⟩ := hcov r (List.mem_cons_self r t)
      exact absurd hp (List.not_mem_nil p)
  | cons k ks ih =>
    have hk : k ∉ ks := (List.nodup_cons.mp hnd).1
    have hnd' : ks.Nodup := (List.nodup_cons.mp hnd).2
    set rows' := rows.filter (fun r => !(decide (r.phylum = some k))) with hrows'
    have hgroups : ∀ p ∈ ks, phylumGroup rows p = phylumGroup rows' p := by
      intro p hp
      have hpk : p ≠ k := fun h => hk (h ▸ hp)
      rw [hrows', phylumGroup, phylumGroup, List.filter_filter]
      apply List.filter_congr
      intro r _
      by_cases hr : r.phylum = some p
      · have : r.phylum ≠ some k := by
          rw [hr]; intro h; exact hpk (Option.some.injEq _ _ ▸ h)
        simp only [hr, this]
        simp
        exact hpk
      · simp [hr]
    have hcov' : ∀ r ∈ rows', ∃ p ∈ ks, r.phylum = some p := by
      intro r hr
      rw [hrows', List.mem_filter] at hr
      obtain ⟨p, hp, hrp⟩ := hcov r hr.1
      rcases List.mem_cons.mp hp with h | h
      · exfalso
        have := hr.2
        rw [hrp, h] at this
        simp at this
      · exact ⟨p, h, hrp⟩
    have hmapeq : ks.map (fun p => ((phylumGroup rows p).map f).sum)
        = ks.map (fun p => ((phylumGroup rows' p).map f).sum) :=
      List.map_congr_left (fun p hp => by rw [hgroups p hp])
    rw [List.map_cons, List.sum_cons, hmapeq, ih rows' hnd' hcov']
    rw [hrows']
    simp only [phylumGroup]
    exact sum_filter_add_sum_filter_not rows (fun r => decide (r.phylum = some k)) f

lemma mem_groupKeys {df : List RawRow} {p : String} :
    p ∈ groupKeys df ↔ ∃ r ∈ df, r.phylum = some p := by
  rw [groupKeys, (List.perm_insertionSort _ _).mem_iff, List.mem_dedup,
    List.mem_filterMap]

lemma nodup_groupKeys (df : List RawRow) : (groupKeys df).Nodup :=
  ((List.perm_insertionSort _ _).nodup_iff).mpr (List.nodup_dedup _)

lemma sorted_groupKeys (df : List RawRow) :
    (groupKeys df).Sorted (· < ·) :=
  (List.sorted_insertionSort _ _).lt_of_le (nodup_groupKeys df)

lemma map_phylum_summary (df : List RawRow) :
    (calculate_summary_statistics df).map (fun s => s.phylum) = groupKeys df := by
  simp only [calculate_summary_statistics, List.map_map]
  have : ∀ p ∈ groupKeys df,
      ((fun s => s.phylum) ∘ roundAvg ∘ aggGroup df) p = id p := fun p _ => rfl
  rw [List.map_congr_left this, List.map_id]

lemma mem_summary {df : List RawRow} {s : SummaryRow} :
    s ∈ calculate_summary_statistics df ↔
      ∃ p ∈ groupKeys df, s = roundAvg (aggGroup df p) := by
  simp only [calculate_summary_statistics, List.map_map, List.mem_map,
    Function.comp]
  constructor
  · rintro ⟨p, hp, rfl⟩; exact ⟨p, hp, rfl⟩
  · rintro ⟨p, hp, rfl⟩; exact ⟨p, hp, rfl⟩

lemma cleaned_mem {df : List RawRow} (h : cleanedFrame df = true) :
    ∀ r ∈ df, r.species.isSome ∧ r.phylum.isSome ∧ isNumCell r.count := by
  intro r hr
  have h2 := List.all_eq_true.mp h r hr
  simp only [Bool.and_eq_true] at h2
  exact ⟨h2.1.1, h2.1.2, h2.2⟩

lemma countVal_eq_countQ {r : RawRow} (h : isNumCell r.count = true) :
    countVal r.count = some (countQ r) := by
  cases hc : r.count with
  | null => rw [hc] at h; simp [isNumCell] at h
  | num q => simp [countVal, countQ, hc]
  | nonnum s => rw [hc] at h; simp [isNumCell] at h

lemma group_vals_eq {df : List RawRow} (h : cleanedFrame df = true)
    (p : String) :
    (phylumGroup df p).filterMap (fun r => countVal r.count)
      = (phylumGroup df p).map countQ := by
  apply filterMap_eq_map_of_forall
  intro r hr
  have hrdf : r ∈ df := List.mem_of_mem_filter hr
  exact countVal_eq_countQ (cleaned_mem h r hrdf).2.2

lemma roundHalfEven_intCast (z : ℤ) : roundHalfEven (z : ℚ) = z := by
  norm_num [roundHalfEven, Int.floor_intCast]

lemma round2_intCast (z : ℤ) : round2 (z : ℚ) = (z : ℚ) := by
  have hcast : ((z : ℚ)) * 100 = ((z * 100 : ℤ) : ℚ) := by push_cast; ring
  rw [round2, hcast, roundHalfEven_intCast]
  push_cast
  field_simp

lemma round2_onehundredtwenty : round2 (120 : ℚ) = 120 := by
  have h : ((120 : ℤ) : ℚ) = (120 : ℚ) := by norm_num
  rw [← h, round2_intCast]

lemma summary_exOne : calculate_summary_statistics exOne = [exOneSummary] := by
  have hkeys : groupKeys exOne = ["Firmicutes"] := by decide
  simp only [calculate_summary_statistics]
  rw [hkeys]
  simp only [List.map_cons, List.map_nil, aggGroup, roundAvg, phylumGroup,
    countVal]
  simp [exOne, exRow, exOneSummary, round2_onehundredtwenty]

/-! ### Claims -/

/-- C1: for every cleaned Observation sequence, the summary table has
exactly one entry per distinct phylum occurring in the sequence, each
entry's total equals the sum of `count` over the Observations with that
phylum, and the totals over all entries sum to the sum of `count` over
all Observations. -/
theorem c1_groupby_sum_correct (df : List RawRow)
    (h : cleanedFrame df = true) :
    ((calculate_summary_statistics df).map (fun s => s.phylum)).Nodup ∧
    (∀ p : String,
      (∃ s ∈ calculate_summary_statistics df, s.phylum = p) ↔
        ∃ r ∈ df, r.phylum = some p) ∧
    (∀ s ∈ calculate_summary_statistics df,
      s.total_species_count = ((phylumGroup df s.phylum).map countQ).sum) ∧
    ((calculate_summary_statistics df).map
        (fun s => s.total_species_count)).sum = (df.map countQ).sum := by
  refine ⟨?_, ?_, ?_, ?_⟩
  · rw [map_phylum_summary]
    exact nodup_groupKeys df
  · intro p
    have hmm : (∃ s ∈ calculate_summary_statistics df, s.phylum = p) ↔
        p ∈ (calculate_summary_statistics df).map (fun s => s.phylum) := by
      rw [List.mem_map]
    rw [hmm, map_phylum_summary, mem_groupKeys]
  · intro s hs
    obtain ⟨p, hp, rfl⟩ := mem_summary.mp hs
    simp only [roundAvg, aggGroup]
    rw [group_vals_eq h p]
  · have h1 : (calculate_summary_statistics df).map
        (fun s => s.total_species_count)
        = (groupKeys df).map (fun p => ((phylumGroup df p).map countQ).sum) := by
      simp only [calculate_summary_statistics, List.map_map]
      apply List.map_congr_left
      intro p _
      simp only [Function.comp, roundAvg, aggGroup]
      rw [group_vals_eq h p]
    rw [h1]
    apply sum_over_groups (groupKeys df) df countQ (nodup_groupKeys df)
    intro r hr
    obtain ⟨-, hph, -⟩ := cleaned_mem h r hr
    obtain ⟨p, hp⟩ := Option.isSome_iff_exists.mp hph
    exact ⟨p, mem_groupKeys.mpr ⟨r, hr, hp⟩, hp⟩

/-- Witness for C1 at the spec's example table. -/
theorem c1_witness :
    cleanedFrame exDf = true ∧
    (((calculate_summary_statistics exDf).map (fun s => s.phylum)).Nodup ∧
    (∀ p : String,
      (∃ s ∈ calculate_summary_statistics exDf, s.phylum = p) ↔
        ∃ r ∈ exDf, r.phylum = some p) ∧
    (∀ s ∈ calculate_summary_statistics exDf,
      s.total_species_count = ((phylumGroup exDf s.phylum).map countQ).sum) ∧
    ((calculate_summary_statistics exDf).map
        (fun s => s.total_species_count)).sum = (exDf.map countQ).sum) :=
  ⟨by rfl, c1_groupby_sum_correct exDf (by rfl)⟩

/-- C2: every row returned by `read_data` has species, phylum and count
present (non-null) and count equal to an integer value. -/
theorem c2_observation_invariant (src : Source) (rows : List RawRow)
    (h : read_data src = Except.ok rows) :
    ∀ r ∈ rows, r.species ≠ none ∧ r.phylum ≠ none ∧
      ∃ z : ℤ, r.count = NumCell.num (z : ℚ) := by
  obtain ⟨rows₀, rfl⟩ := read_data_ok h
  intro r hr
  rw [cleanRows_eq_filterMap] at hr
  obtain ⟨r₀, _, hcr⟩ := List.mem_filterMap.mp hr
  exact cleanRow_invariant hcr

/-- Witness for C2 on the example frame with a dirty row. -/
theorem c2_witness :
    read_data (Source.stream (some exFrame))
      = Except.ok (cleanRows exFrame.rows) ∧
    (∀ r ∈ cleanRows exFrame.rows, r.species ≠ none ∧ r.phylum ≠ none ∧
      ∃ z : ℤ, r.count = NumCell.num (z : ℚ)) :=
  ⟨by rfl, c2_observation_invariant (Source.stream (some exFrame))
    (cleanRows exFrame.rows) (by rfl)⟩

/-- C3: every input row with non-null species and phylum and a count that
coerces to a number survives cleaning, its count cast to integer by
truncation of the fractional part. -/
theorem c3_valid_rows_kept (rows : List RawRow) (r : RawRow)
    (hmem : r ∈ rows) (hs : r.species ≠ none) (hp : r.phylum ≠ none)
    (q : ℚ) (hq : toNumericCoerce r.count = NumCell.num q) :
    { r with count := NumCell.num ((truncQ q : ℤ) : ℚ) } ∈ cleanRows rows := by
  rw [cleanRows_eq_filterMap]
  refine List.mem_filterMap.mpr ⟨r, hmem, ?_⟩
  have hcnt : r.count ≠ NumCell.null := by
    intro h0
    rw [h0] at hq
    simp [toNumericCoerce] at hq
  have hcomp : rowComplete r = true := by
    simp [rowComplete, Option.isSome_iff_ne_none, hs, hp, hcnt]
  simp [cleanRow, hcomp, hq, astypeInt]

/-- Witness for C3: the 200-count row survives with count 200. -/
theorem c3_witness :
    exRow "SpeciesC" "Bacteroidetes" (NumCell.num 200) ∈ exRawRows ∧
    { exRow "SpeciesC" "Bacteroidetes" (NumCell.num 200) with
        count := NumCell.num ((truncQ 200 : ℤ) : ℚ) } ∈ cleanRows exRawRows :=
  ⟨by decide, c3_valid_rows_kept exRawRows
    (exRow "SpeciesC" "Bacteroidetes" (NumCell.num 200)) (by decide)
    (by decide) (by decide) 200 (by decide)⟩

/-- C4: cleaning is a per-row filter-map (rows are handled independently
and in input order), and any row with a missing required field or a count
failing numeric coercion is mapped to `none`, i.e. silently dropped. -/
theorem c4_invalid_rows_dropped_in_order (rows : List RawRow) :
    cleanRows rows = rows.filterMap cleanRow ∧
    (∀ r : RawRow,
      (r.species = none ∨ r.phylum = none ∨
        toNumericCoerce r.count = NumCell.null) → cleanRow r = none) :=
  ⟨cleanRows_eq_filterMap rows, fun r h => cleanRow_of_invalid r h⟩

/-- Witness for C4 on the example rows and the non-numeric row. -/
theorem c4_witness :
    cleanRows exRawRows = exRawRows.filterMap cleanRow ∧
    cleanRow exBadRow = none :=
  ⟨(c4_invalid_rows_dropped_in_order exRawRows).1,
   (c4_invalid_rows_dropped_in_order exRawRows).2 exBadRow
     (Or.inr (Or.inr (by rfl)))⟩

/-- C5: a parsed frame missing any required column makes `read_data` exit
with code 1 (whatever its rows are, so before any row cleaning); when all
three are present — extra columns allowed — it returns the cleaned rows. -/
theorem c5_schema_check (cols : List String) (rows : List RawRow) :
    (hasRequiredColumns cols = false →
      read_data (Source.stream (some { columns := cols, rows := rows }))
        = Except.error 1) ∧
    (hasRequiredColumns cols = true →
      read_data (Source.stream (some { columns := cols, rows := rows }))
        = Except.ok (cleanRows rows)) := by
  constructor <;> intro h <;> simp [read_data, read_frame, h]

/-- Witness for C5: a frame missing `phylum` fails, a frame with an extra
`kingdom` column succeeds. -/
theorem c5_witness :
    read_data (Source.stream (some exFrameMissing)) = Except.error 1 ∧
    read_data (Source.stream (some exFrameExtra))
      = Except.ok (cleanRows exDf) :=
  ⟨(c5_schema_check exFrameMissing.columns exFrameMissing.rows).1 (by rfl),
   (c5_schema_check exFrameExtra.columns exFrameExtra.rows).2 (by rfl)⟩

/-- C6: a path to a non-existent file makes `read_data` exit with code 1,
whatever the parse of the file would have been (so before any parsing). -/
theorem c6_missing_file_exits_before_parsing (fname : String)
    (parsed : Option RawFrame) :
    read_data (Source.path fname false parsed) = Except.error 1 := rfl

/-- C7: aggregating an empty Observation sequence returns an empty
summary table (and, the function being total here, no error). -/
theorem c7_empty_sequence_empty_summary :
    calculate_summary_statistics ([] : List RawRow) = [] := rfl

/-- C8: on a cleaned sequence, every summary entry's average equals its
total divided by the number of Observations of that phylum, rounded to 2
decimal places. -/
theorem c8_average_is_rounded_mean (df : List RawRow)
    (h : cleanedFrame df = true) (s : SummaryRow)
    (hs : s ∈ calculate_summary_statistics df) :
    (phylumGroup df s.phylum).length ≠ 0 ∧
    s.average_species_count = some (round2 (s.total_species_count
        / ((phylumGroup df s.phylum).length : ℚ))) := by
  obtain ⟨p, hp, rfl⟩ := mem_summary.mp hs
  obtain ⟨r, hr, hrp⟩ := mem_groupKeys.mp hp
  have hrg : r ∈ phylumGroup df p :=
    List.mem_filter.mpr ⟨hr, by simp [hrp]⟩
  have hne : (phylumGroup df p).length ≠ 0 := by
    intro h0
    rw [List.length_eq_zero] at h0
    rw [h0] at hrg
    exact List.not_mem_nil r hrg
  have hvals := group_vals_eq h p
  constructor
  · exact hne
  · show (roundAvg (aggGroup df p)).average_species_count = _
    simp only [roundAvg, aggGroup, hvals, List.length_map]
    rw [if_neg hne]
    simp

/-- Witness for C8 at the single entry of a one-row table. -/
theorem c8_witness :
    cleanedFrame exOne = true ∧
    exOneSummary ∈ calculate_summary_statistics exOne ∧
    ((phylumGroup exOne exOneSummary.phylum).length ≠ 0 ∧
      exOneSummary.average_species_count
        = some (round2 (exOneSummary.total_species_count
            / ((phylumGroup exOne exOneSummary.phylum).length : ℚ)))) :=
  ⟨by rfl, by simp [summary_exOne],
   c8_average_is_rounded_mean exOne (by rfl) exOneSummary
     (by simp [summary_exOne])⟩

/-- C9: the summary rows are emitted with their phylum strings in strictly
ascending lexicographic order (pandas `groupby` default sorting), one per
distinct phylum of the input, not in first-seen order. -/
theorem c9_summary_sorted_by_phylum (df : List RawRow) :
    ((calculate_summary_statistics df).map (fun s => s.phylum)).Sorted
        (· < ·) ∧
    (∀ p : String,
      p ∈ (calculate_summary_statistics df).map (fun s => s.phylum) ↔
        ∃ r ∈ df, r.phylum = some p) := by
  rw [map_phylum_summary]
  exact ⟨sorted_groupKeys df, fun p => mem_groupKeys⟩

/-- C10: the body of `calculate_summary_statistics`, with its local state
explicit, returns the input frame unchanged next to the summary it
computes: rounding is applied to the new summary table only. -/
theorem c10_argument_frame_unchanged (df : List RawRow) :
    (calculate_summary_statistics_run df).1 = df ∧
    (calculate_summary_statistics_run df).2 = calculate_summary_statistics df :=
  ⟨rfl, rfl⟩

end TaxonomicStats
